import Mathlib

/-!
Verification development for the Tabs personal-finance tracker
(src/Tabs_Gemini_MVP_1.js).  The definitions below are a shallow embedding
of the pure logic of that file: the import decoders, the categorizer, the
ledger mutations with their account-balance reconciliation, and the
dashboard aggregation.  JavaScript numbers are modelled by `JSNum`
(a rational, NaN, or a signed infinity) in the decoder layer and by `ℚ`
in the ledger layer; JSON values by `JValue`.
-/

attribute [local semireducible] Rat.add Rat.mul Rat.sub Rat.inv Rat.ofScientific

namespace Tabs

/-- ASCII lower-casing of one character, as JavaScript `toLowerCase`
acts on ASCII letters. -/
def charLower (c : Char) : Char :=
  if 'A' ≤ c ∧ c ≤ 'Z' then Char.ofNat (c.toNat + 32) else c

/-- Lower-case a string (ASCII range), modelling `String.prototype.toLowerCase`
as used on the ASCII descriptions in this program. -/
def strLower (s : String) : String := ⟨s.data.map charLower⟩

/-- Boolean prefix test on character lists. -/
def prefixCl : List Char → List Char → Bool
  | [], _ => true
  | _ :: _, [] => false
  | a :: t₁, b :: t₂ => a == b && prefixCl t₁ t₂

/-- Substring containment on character lists. -/
def inclCl (needle : List Char) : List Char → Bool
  | [] => needle.isEmpty
  | c :: t => prefixCl needle (c :: t) || inclCl needle t

/-- JavaScript substring test `s.includes(t)`. -/
def strIncludes (s t : String) : Bool := inclCl t.data s.data

/-- Embedding of `categorizeTransaction`
(src/Tabs_Gemini_MVP_1.js lines 135-147): ordered keyword checks on the
lower-cased description, default `"Other"`. -/
def categorizeTransaction (description : String) : String :=
  let l := strLower description
  if strIncludes l "grocery" then "Food & Dining"
  else if strIncludes l "restaurant" then "Food & Dining"
  else if strIncludes l "rent" then "Housing"
  else if strIncludes l "mortgage" then "Housing"
  else if strIncludes l "fuel" || strIncludes l "gas" then "Transportation"
  else if strIncludes l "electricity" || strIncludes l "water" then "Utilities"
  else if strIncludes l "amazon" || strIncludes l "ebay" then "Shopping"
  else if strIncludes l "salary" || strIncludes l "paycheck" then "Income"
  else if strIncludes l "netflix" || strIncludes l "hulu" then "Entertainment"
  else "Other"

/-- The categorization rule table exactly as the spec lists it (§4.2). -/
def specRules : List (List String × String) :=
  [(["grocery", "restaurant"], "Food & Dining"),
   (["rent", "mortgage"], "Housing"),
   (["fuel", "gas"], "Transportation"),
   (["electricity", "water"], "Utilities"),
   (["amazon", "ebay"], "Shopping"),
   (["salary", "paycheck"], "Income"),
   (["netflix", "hulu"], "Entertainment")]

/-- Modelled from the spec words (§4.2): apply an ordered list of
case-insensitive substring rules, first match wins, no match yields
`"Other"`.  Used only to compare against `categorizeTransaction`. -/
def specCategorize (description : String) : String :=
  let l := strLower description
  specRules.foldr
    (fun rule rest => if rule.1.any (fun kw => strIncludes l kw) then rule.2 else rest)
    "Other"

/-- A JavaScript number as this program can observe it: a finite value
(modelled exactly by a rational), `NaN`, or a signed infinity. -/
inductive JSNum where
  | num (q : ℚ)
  | nan
  | inf
  | neginf
deriving DecidableEq, Repr

/-- JavaScript `isNaN` on a `JSNum`. -/
def JSNum.isNaN : JSNum → Bool
  | .nan => true
  | _ => false

/-- JavaScript `Number.isFinite` on a `JSNum`. -/
def JSNum.isFinite : JSNum → Bool
  | .num _ => true
  | _ => false

/-- Value of a list of decimal digit characters. -/
def digitsVal (ds : List Char) : ℕ :=
  ds.foldl (fun n c => 10 * n + (c.toNat - 48)) 0

/-- Core of the JavaScript `parseFloat` builtin on a character list:
skip leading whitespace, optional sign, `Infinity` literal or a decimal
mantissa with optional fraction and exponent; the longest valid prefix is
parsed and trailing text is ignored; no digits at all yields `NaN`. -/
def parseFloatCl (cs : List Char) : JSNum :=
  let cs := cs.dropWhile Char.isWhitespace
  let sgn : ℚ × List Char :=
    match cs with
    | '-' :: t => (-1, t)
    | '+' :: t => (1, t)
    | _ => (1, cs)
  let s := sgn.1
  let cs := sgn.2
  if prefixCl "Infinity".data cs then
    if s = 1 then .inf else .neginf
  else
    let intPart := cs.takeWhile Char.isDigit
    let cs1 := cs.dropWhile Char.isDigit
    let fracSplit : List Char × List Char :=
      match cs1 with
      | '.' :: t => (t.takeWhile Char.isDigit, t.dropWhile Char.isDigit)
      | _ => ([], cs1)
    let fracPart := fracSplit.1
    let cs2 := fracSplit.2
    if intPart.isEmpty && fracPart.isEmpty then .nan
    else
      let mant : ℚ := (digitsVal (intPart ++ fracPart) : ℚ) / (10 : ℚ) ^ fracPart.length
      let expv : ℤ :=
        match cs2 with
        | e :: t =>
          if e == 'e' || e == 'E' then
            let esgn : ℤ × List Char :=
              match t with
              | '-' :: u => (-1, u)
              | '+' :: u => (1, u)
              | _ => (1, t)
            let eds := esgn.2.takeWhile Char.isDigit
            if eds.isEmpty then 0 else esgn.1 * (digitsVal eds : ℤ)
          else 0
        | [] => 0
      .num (s * mant * (10 : ℚ) ^ expv)

/-- JavaScript `parseFloat` on a string. -/
def parseFloat (str : String) : JSNum := parseFloatCl str.data

/-- A parsed JSON value, the result of a successful `JSON.parse`. -/
inductive JValue where
  | null
  | bool (b : Bool)
  | num (q : ℚ)
  | str (s : String)
  | arr (items : List JValue)
  | obj (fields : List (String × JValue))
deriving Repr

/-- JavaScript falsiness of a JSON value (`undefined` is represented
separately as `Option.none` where it can occur). -/
def jvalFalsy : JValue → Bool
  | .null => true
  | .bool b => !b
  | .num q => decide (q = 0)
  | .str s => decide (s = "")
  | _ => false

/-- Decimal digits of a fractional part `0 ≤ r < 1`, with fuel.  The ℚ
values standing in for floats have terminating decimal expansions, as the
floats they model do. -/
def fracDigitsAux : ℕ → ℚ → String
  | 0, _ => ""
  | fuel + 1, r =>
    if r = 0 then ""
    else
      let r10 := r * 10
      let d := r10.floor
      toString d.toNat ++ fracDigitsAux fuel (r10 - (d : ℚ))

/-- Decimal rendering of a rational, modelling JS number-to-string on the
terminating decimals that stand in for floats. -/
def ratDecimalStr (q : ℚ) : String :=
  let sgn := if q < 0 then "-" else ""
  let a := |q|
  let ip := a.floor.toNat
  let fr := a - (a.floor : ℚ)
  if fr = 0 then sgn ++ toString ip
  else sgn ++ toString ip ++ "." ++ fracDigitsAux 1200 fr

mutual

/-- JavaScript string coercion `String(v)` of a JSON value, as used by
`parseFloat` when handed a non-string argument. -/
def jvalToStr : JValue → String
  | .null => "null"
  | .bool b => if b then "true" else "false"
  | .num q => ratDecimalStr q
  | .str s => s
  | .arr items => String.intercalate "," (jvalElems items)
  | .obj _ => "[object Object]"

/-- Elements of `Array.prototype.join(",")`: `null` joins as the empty
string, everything else by its string coercion. -/
def jvalElems : List JValue → List String
  | [] => []
  | .null :: t => "" :: jvalElems t
  | v :: t => jvalToStr v :: jvalElems t

end

/-- JavaScript `parseFloat` applied to a JSON value: a number is returned
unchanged (number-to-string-to-number round-trips), anything else is
coerced to a string first. -/
def parseFloatJV : JValue → JSNum
  | .num q => .num q
  | v => parseFloat (jvalToStr v)

/-- JavaScript `a || b` on strings, where only the empty string is falsy
(an absent field is handled by the caller via `Option.getD`). -/
def jsOrStr (s dflt : String) : String := if s = "" then dflt else s

/-- JavaScript `v || dflt` where `v` may be `undefined` (`none`). -/
def jvalOr (v : Option JValue) (dflt : JValue) : JValue :=
  match v with
  | none => dflt
  | some x => if jvalFalsy x then dflt else x

/-- JavaScript member access `v[k]` on a parsed JSON value: `none` is
`undefined`.  `JSON.parse` keeps the last duplicate key, hence
`getLast?`. -/
def jvalGet (v : JValue) (k : String) : Option JValue :=
  match v with
  | .obj fields => ((fields.filter (fun p => p.1 == k)).getLast?).map Prod.snd
  | _ => none

/-- A raw decoded import record of date, description and amount: the two
text fields keep the JavaScript value they received, the amount is always
the result of `parseFloat`. -/
structure SrcRec where
  date : JValue
  description : JValue
  amount : JSNum
deriving Repr

/-- JavaScript string split on a one-character separator. -/
def splitOnCl (sep : Char) : List Char → List (List Char)
  | [] => [[]]
  | c :: t =>
    let r := splitOnCl sep t
    if c == sep then [] :: r
    else
      match r with
      | [] => [[c]]
      | h :: t' => (c :: h) :: t'

/-- JavaScript string split, wrapped for `String`. -/
def splitStr (sep : Char) (s : String) : List String :=
  (splitOnCl sep s.data).map (fun l => String.mk l)

/-- JavaScript trim: strip whitespace from both ends. -/
def jsTrim (s : String) : String :=
  String.mk (((s.data.dropWhile Char.isWhitespace).reverse.dropWhile Char.isWhitespace).reverse)

/-- The header-keyed row object of `parseCSV`: `headers.forEach` assigns
`obj[header] = values[index]`, so a duplicated header keeps its last
occurrence and an index beyond the values row stores `undefined`
(`none`). -/
def objGet (headers values : List String) (field : String) : Option String :=
  match ((headers.enum.filter (fun p => p.2 == field)).getLast?) with
  | none => none
  | some (i, _) => values.get? i

/-- One data row of `parseCSV` (src/Tabs_Gemini_MVP_1.js lines 98-109). -/
def csvRow (headers values : List String) : SrcRec :=
  let date := jsOrStr ((objGet headers values "Date").getD "") ""
  let description := jsOrStr ((objGet headers values "Description").getD "") ""
  let amount := parseFloat (jsOrStr ((objGet headers values "Amount").getD "") "0")
  { date := .str date, description := .str description, amount := amount }

/-- Embedding of `parseCSV` (src/Tabs_Gemini_MVP_1.js lines 95-111). -/
def parseCSV (text : String) : List SrcRec :=
  let lines := splitStr '\n' (jsTrim text)
  let headers := (splitStr ',' (lines.headD "")).map jsTrim
  (lines.drop 1).map (fun line => csvRow headers ((splitStr ',' line).map jsTrim))

/-- One array item of `parseYNAB`: member access on `null` throws a
`TypeError`, which the surrounding `try` converts into an empty result. -/
def ynabItem : JValue → Except Unit SrcRec
  | .null => .error ()
  | v =>
    .ok { date := jvalOr (jvalGet v "Date") (.str ""),
          description := jvalOr (jvalGet v "Description") (.str ""),
          amount := parseFloatJV (jvalOr (jvalGet v "Amount") (.str "0")) }

/-- Embedding of `parseYNAB` (src/Tabs_Gemini_MVP_1.js lines 113-132).
The argument is the outcome of `JSON.parse`: `none` when it threw.  A
parse failure, a non-array value, and an exception inside the `map` all
land in the same `catch`/early return and yield `[]`. -/
def parseYNAB (parsed : Option JValue) : List SrcRec :=
  match parsed with
  | none => []
  | some v =>
    match v with
    | .arr items =>
      match items.mapM ynabItem with
      | .ok recs => recs
      | .error _ => []
    | _ => []

/-- Does the `JSON.parse` outcome hold an array? -/
def isArrayOpt : Option JValue → Bool
  | some (.arr _) => true
  | _ => false

/-- The per-record validation of `handleImport`
(src/Tabs_Gemini_MVP_1.js lines 389-399): drop the record when its date is
falsy or its amount is `NaN`. -/
def validTx (t : SrcRec) : Bool :=
  if jvalFalsy t.date then false
  else if t.amount.isNaN then false
  else true

/-- The accepted batch (`validatedTransactions` in `handleImport`). -/
def validatedTransactions (parsed : List SrcRec) : List SrcRec :=
  parsed.filter validTx

/-- A ledger transaction.  `crypto.randomUUID()` identifiers are modelled
by natural numbers issued from a fresh counter; amounts, being validated
finite numbers, by rationals. -/
structure Transaction where
  id : ℕ
  date : String
  description : String
  category : String
  amount : ℚ
  account : String
deriving Repr, DecidableEq

/-- An account as stored in component state. -/
structure Account where
  id : String
  name : String
  type : String
  balance : ℚ
deriving Repr, DecidableEq

/-- The two React state cells of `PersonalFinanceApp`, plus the fresh-id
counter standing in for `crypto.randomUUID()`. -/
structure LedgerState where
  transactions : List Transaction
  accounts : List Account
  nextId : ℕ
deriving Repr, DecidableEq

/-- The three seeded default accounts
(src/Tabs_Gemini_MVP_1.js lines 971-975). -/
def seedAccounts : List Account :=
  [{ id := "checking1", name := "Checking Account 1", type := "checking", balance := 1234.56 },
   { id := "savings1", name := "Savings Account 1", type := "savings", balance := 5678.90 },
   { id := "credit1", name := "Credit Card 1", type := "credit", balance := -500.00 }]

/-- First-launch state: no transactions, the seeded accounts. -/
def initialState : LedgerState :=
  { transactions := [], accounts := seedAccounts, nextId := 0 }

/-- The argument of `addTransaction`: a transaction without its id. -/
structure TxInput where
  date : String
  description : String
  category : String
  amount : ℚ
  account : String

/-- Embedding of `addTransaction` (src/Tabs_Gemini_MVP_1.js lines
1000-1019). -/
def addTransaction (t : TxInput) (s : LedgerState) : LedgerState :=
  let newTransaction : Transaction :=
    { id := s.nextId, date := t.date, description := t.description,
      category := t.category, amount := t.amount, account := t.account }
  { transactions := s.transactions ++ [newTransaction],
    accounts := s.accounts.map (fun account =>
      if account.id = newTransaction.account then
        { account with balance := account.balance + newTransaction.amount }
      else account),
    nextId := s.nextId + 1 }

/-- A validated import record as `importTransactions` receives it. -/
structure ImportRec where
  date : String
  description : String
  amount : ℚ

/-- Embedding of `importTransactions` (src/Tabs_Gemini_MVP_1.js lines
1021-1044): assign ids, categorize each description, force the target
account, append all, and credit the target account with the batch total
(the `reduce` over the incoming records). -/
def importTransactions (newTransactions : List ImportRec) (accountId : String)
    (s : LedgerState) : LedgerState :=
  let transactionsWithIds : List Transaction :=
    newTransactions.enum.map (fun p =>
      { id := s.nextId + p.1, date := p.2.date, description := p.2.description,
        category := categorizeTransaction p.2.description,
        amount := p.2.amount, account := accountId })
  { transactions := s.transactions ++ transactionsWithIds,
    accounts := s.accounts.map (fun account =>
      if account.id = accountId then
        let totalAmount := newTransactions.foldl (fun sum t => sum + t.amount) 0
        { account with balance := account.balance + totalAmount }
      else account),
    nextId := s.nextId + newTransactions.length }

/-- Embedding of `deleteTransaction` (src/Tabs_Gemini_MVP_1.js lines
1046-1066): a missing id returns early, otherwise the transaction is
filtered out and its amount debited from its account. -/
def deleteTransaction (id : ℕ) (s : LedgerState) : LedgerState :=
  match s.transactions.find? (fun t => t.id == id) with
  | none => s
  | some transactionToDelete =>
    { transactions := s.transactions.filter (fun transaction => transaction.id ≠ id),
      accounts := s.accounts.map (fun account =>
        if account.id = transactionToDelete.account then
          { account with balance := account.balance - transactionToDelete.amount }
        else account),
      nextId := s.nextId }

/-- The argument of `updateTransaction`: an optional replacement for
each field. -/
structure TxUpdates where
  date : Option String := none
  description : Option String := none
  category : Option String := none
  amount : Option ℚ := none
  account : Option String := none

/-- Spread update, `{ ...transaction, ...updates }` in the source. -/
def applyUpdates (t : Transaction) (u : TxUpdates) : Transaction :=
  { t with
    date := u.date.getD t.date,
    description := u.description.getD t.description,
    category := u.category.getD t.category,
    amount := u.amount.getD t.amount,
    account := u.account.getD t.account }

/-- Embedding of `updateTransaction` (src/Tabs_Gemini_MVP_1.js lines
1068-1123).  The transactions pass applies the updates.  The accounts pass
is a `useCallback` closure over the pre-update `transactions` array, so
both `originalTransaction` and `updatedTransaction` are looked up in
`s.transactions`, the snapshot from before the edit — faithfully kept
here, stale reads included. -/
def updateTransaction (id : ℕ) (updates : TxUpdates) (s : LedgerState) : LedgerState :=
  let transactions' := s.transactions.map (fun transaction =>
    if transaction.id = id then applyUpdates transaction updates else transaction)
  let accounts' := s.accounts.map (fun account =>
    match s.transactions.find? (fun t => t.id == id) with
    | none => account
    | some originalTransaction =>
      let updatedTransactionOpt := s.transactions.find? (fun t => t.id == id)
      if account.id = originalTransaction.account then
        let amountDifference : ℚ :=
          match updatedTransactionOpt with
          | some updatedTransaction => updatedTransaction.amount - originalTransaction.amount
          | none => 0
        { account with balance := account.balance + amountDifference }
      else
        match updatedTransactionOpt with
        | some updatedTransaction =>
          if account.id = updatedTransaction.account then
            { account with
              balance := account.balance + (updatedTransaction.amount - originalTransaction.amount) }
          else account
        | none => account)
  { transactions := transactions', accounts := accounts', nextId := s.nextId }

/-- Seed balance of an account id, read off the seeded defaults. -/
def seedBalance (accountId : String) : ℚ :=
  match seedAccounts.find? (fun a => a.id == accountId) with
  | some a => a.balance
  | none => 0

/-- Sum of the amounts of the transactions currently attributed to an
account. -/
def attributedSum (s : LedgerState) (accountId : String) : ℚ :=
  ((s.transactions.filter (fun t => t.account == accountId)).map (fun t => t.amount)).sum

/-- The reconciliation invariant of spec §4.4: each account balance equals
its seed balance plus the sum of its attributed transaction amounts. -/
def reconciled (s : LedgerState) : Prop :=
  ∀ a ∈ s.accounts, a.balance = seedBalance a.id + attributedSum s a.id

instance (s : LedgerState) : Decidable (reconciled s) := by
  unfold reconciled
  infer_instance

/-- Balance of a named account in a state (0 when absent). -/
def getBalance (s : LedgerState) (accountId : String) : ℚ :=
  match s.accounts.find? (fun a => a.id == accountId) with
  | some a => a.balance
  | none => 0

/-- Dashboard `income` (src/Tabs_Gemini_MVP_1.js lines 736-738) over the
in-scope (month/year-filtered) transactions. -/
def income (ts : List Transaction) : ℚ :=
  (ts.filter (fun t => decide (t.amount > 0))).foldl (fun sum t => sum + t.amount) 0

/-- Dashboard `expenses` (lines 739-741). -/
def expenses (ts : List Transaction) : ℚ :=
  (ts.filter (fun t => decide (t.amount < 0))).foldl (fun sum t => sum + t.amount) 0

/-- Dashboard `netBalance` (line 742). -/
def netBalance (ts : List Transaction) : ℚ :=
  income ts + expenses ts

/-- Assignment `acc[k] = v` on a JS object modelled as an insertion-ordered
association list. -/
def objSet (acc : List (String × ℚ)) (k : String) (v : ℚ) : List (String × ℚ) :=
  match acc with
  | [] => [(k, v)]
  | (k', v') :: t => if k' = k then (k, v) :: t else (k', v') :: objSet t k v

/-- Lookup `acc[k] || 0` on the same object model. -/
def objGet0 (acc : List (String × ℚ)) (k : String) : ℚ :=
  match acc with
  | [] => 0
  | (k', v') :: t => if k' = k then v' else objGet0 t k

/-- Dashboard `categoryTotals` (src/Tabs_Gemini_MVP_1.js lines 745-749):
`acc[category] = (acc[category] || 0) + (t.amount < 0 ? Math.abs(t.amount) : 0)`
folded over the in-scope transactions. -/
def categoryTotals (ts : List Transaction) : List (String × ℚ) :=
  ts.foldl (fun acc t =>
    objSet acc t.category
      (objGet0 acc t.category + (if t.amount < 0 then |t.amount| else 0))) []

/-- The per-category contribution of the in-scope transactions with that
category and a negative amount. -/
def catSum (ts : List Transaction) (c : String) : ℚ :=
  ((ts.filter (fun t => decide (t.category = c ∧ t.amount < 0))).map (fun t => |t.amount|)).sum

/-- One manually added transaction: 100 into `checking1`. -/
def exTx : TxInput :=
  { date := "2024-05-01", description := "test", category := "Other",
    amount := 100, account := "checking1" }

/-- Seeded state after adding `exTx`. -/
def exState1 : LedgerState := addTransaction exTx initialState

/-- The edit: change the amount from 100 to 200. -/
def exUpd : TxUpdates := { amount := some 200 }

/-- In-scope transactions of the spec aggregation example:
`[+1000 income, -200 Food, -50 Food]`. -/
def ex5 : List Transaction :=
  [{ id := 1, date := "2024-05-01", description := "Paycheck", category := "Income",
     amount := 1000, account := "checking1" },
   { id := 2, date := "2024-05-02", description := "Groceries", category := "Food",
     amount := -200, account := "checking1" },
   { id := 3, date := "2024-05-03", description := "Dinner", category := "Food",
     amount := -50, account := "checking1" }]

/-- A transaction of 25 on `checking1`, present in `exDelState`. -/
def exDelTx : Transaction :=
  { id := 0, date := "2024-01-01", description := "d", category := "Other",
    amount := 25, account := "checking1" }

/-- A state holding exactly `exDelTx`. -/
def exDelState : LedgerState :=
  { transactions := [exDelTx], accounts := seedAccounts, nextId := 1 }


/-! ### Helper lemmas -/

lemma iteOrSplit {α : Sort _} (a b : Bool) (x r : α) :
    (if a || b then x else r) = if a then x else if b then x else r := by
  cases a <;> simp

lemma foldl_add_amount (l : List ImportRec) (init : ℚ) :
    l.foldl (fun sum t => sum + t.amount) init = init + (l.map (fun t => t.amount)).sum := by
  induction l generalizing init with
  | nil => simp
  | cons h t ih => simp [List.foldl_cons, ih, List.sum_cons]; ring

lemma objGet0_objSet (acc : List (String × ℚ)) (k c : String) (v : ℚ) :
    objGet0 (objSet acc k v) c = if k = c then v else objGet0 acc c := by
  induction acc with
  | nil => simp [objSet, objGet0]
  | cons hd tl ih =>
    obtain ⟨k', v'⟩ := hd
    by_cases h1 : k' = k
    · subst h1
      simp only [objSet, if_pos rfl, objGet0]
      by_cases h2 : k' = c <;> simp [h2]
    · simp only [objSet, if_neg h1, objGet0, ih]
      by_cases h2 : k' = c
      · subst h2
        simp [h1, Ne.symm h1]
      · simp [h2]

lemma categoryTotals_go (ts : List Transaction) (acc : List (String × ℚ)) (c : String) :
    objGet0 (ts.foldl (fun acc t =>
      objSet acc t.category
        (objGet0 acc t.category + (if t.amount < 0 then |t.amount| else 0))) acc) c
    = objGet0 acc c + catSum ts c := by
  induction ts generalizing acc with
  | nil => simp [catSum]
  | cons t ts ih =>
    rw [List.foldl_cons, ih, objGet0_objSet]
    by_cases hc : t.category = c
    · subst hc
      simp only [if_pos rfl, catSum, List.filter_cons]
      by_cases hneg : t.amount < 0
      · simp [hneg, catSum]; ring
      · simp [hneg, catSum]
    · simp only [if_neg hc, catSum, List.filter_cons]
      have : decide (t.category = c ∧ t.amount < 0) = false := by
        simp [hc]
      simp [this, catSum]

lemma validTx_eq (r : SrcRec) :
    validTx r = (!jvalFalsy r.date && !r.amount.isNaN) := by
  unfold validTx
  cases h1 : jvalFalsy r.date <;> cases h2 : r.amount.isNaN <;> simp [h1, h2]

lemma length_filter_compl {α : Type _} (p : α → Bool) (l : List α) :
    (l.filter p).length + (l.filter (fun x => !(p x))).length = l.length := by
  induction l with
  | nil => rfl
  | cons h t ih =>
    cases hp : p h <;> simp [List.filter_cons, hp] <;> omega

/-! ### The claims -/

/-- C1: the reconciliation invariant is claimed to hold after every
add/update/delete starting from the seeded accounts.  The code breaks it:
it holds after adding a transaction of 100 to `checking1`, and fails after
updating that amount of that transaction to 200, because `updateTransaction`
edits the stored amount while leaving every balance unchanged. -/
theorem tabs_c1_invariant_fails :
    reconciled exState1 ∧
    (updateTransaction 0 exUpd exState1).transactions.map (fun t => t.amount) = [200] ∧
    ¬ reconciled (updateTransaction 0 exUpd exState1) := by
  refine ⟨by decide, by decide, by decide⟩

/-- C2: the spec requires `update` to apply the delta
`new_amount - old_amount` to the new account of the transaction.  Updating the
100-amount transaction to 200 leaves `checking1` at its pre-update balance:
the required delta of 100 is not applied. -/
theorem tabs_c2_update_delta_not_applied :
    getBalance (updateTransaction 0 exUpd exState1) "checking1" =
      getBalance exState1 "checking1" ∧
    getBalance (updateTransaction 0 exUpd exState1) "checking1" ≠
      getBalance exState1 "checking1" + ((200 : ℚ) - 100) := by
  refine ⟨by decide, by decide⟩

/-- C3: every `update(id, fields)` leaves every account untouched — the
accounts pass compares the pre-update transaction with itself, so the
applied delta is always zero, whatever fields change. -/
theorem tabs_c3_update_preserves_accounts (id : ℕ) (u : TxUpdates) (s : LedgerState) :
    (updateTransaction id u s).accounts = s.accounts := by
  show s.accounts.map _ = s.accounts
  conv_rhs => rw [← List.map_id s.accounts]
  apply List.map_congr_left
  intro a _
  cases h : s.transactions.find? (fun t => t.id == id) with
  | none => simp [h]
  | some tx =>
    simp only [h, sub_self, add_zero]
    by_cases hacc : a.id = tx.account
    · rw [if_pos hacc]
      rfl
    · rw [if_neg hacc, if_neg hacc]
      rfl

/-- C4: importing a batch credits the target account with exactly the sum
of the amounts of the batch and leaves every other account unchanged. -/
theorem tabs_c4_import_balances (recs : List ImportRec) (accountId : String)
    (s : LedgerState) :
    (importTransactions recs accountId s).accounts =
      s.accounts.map (fun a =>
        if a.id = accountId then
          { a with balance := a.balance + ((recs.map (fun r => r.amount)).sum) }
        else a) := by
  show s.accounts.map _ = _
  apply List.map_congr_left
  intro a _
  by_cases h : a.id = accountId
  · simp [h, foldl_add_amount]
  · simp [h]

/-- C5: `categoryTotals[c]` is the sum of `abs(amount)` over the in-scope
transactions with category `c` and negative amount (so income transactions
contribute nothing), and the spec example month
`[+1000 Income, -200 Food, -50 Food]` yields `income = 1000`,
`expenses = -250`, `netBalance = 750`, `categoryTotals[Food] = 250`. -/
theorem tabs_c5_aggregation :
    (∀ (ts : List Transaction) (c : String),
        objGet0 (categoryTotals ts) c =
          ((ts.filter (fun t => decide (t.category = c ∧ t.amount < 0))).map
            (fun t => |t.amount|)).sum) ∧
    income ex5 = 1000 ∧ expenses ex5 = -250 ∧ netBalance ex5 = 750 ∧
    objGet0 (categoryTotals ex5) "Food" = 250 ∧
    objGet0 (categoryTotals ex5) "Income" = 0 := by
  refine ⟨?_, by decide, by decide, by decide, by decide, by decide⟩
  intro ts c
  have := categoryTotals_go ts [] c
  simpa [categoryTotals, objGet0, catSum] using this

/-- C6: the categorizer agrees with the spec ordered case-insensitive
first-match rule table with default `"Other"` on every description, and the
three example descriptions land where the spec says. -/
theorem tabs_c6_categorizer :
    (∀ d : String, categorizeTransaction d = specCategorize d) ∧
    categorizeTransaction "Monthly Netflix subscription" = "Entertainment" ∧
    categorizeTransaction "Grocery run at Market" = "Food & Dining" ∧
    categorizeTransaction "Unknown vendor xyz" = "Other" := by
  refine ⟨?_, by decide, by decide, by decide⟩
  intro d
  unfold categorizeTransaction specCategorize specRules
  simp only [List.foldr_cons, List.foldr_nil, List.any_cons, List.any_nil,
    Bool.or_false, iteOrSplit]

/-- C7 (as stated, refuted): validation is claimed to discard exactly the
records whose date is empty or whose amount is not a finite number.  A CSV
row with amount `Infinity` decodes to a non-finite amount yet passes
validation untouched. -/
theorem tabs_c7_counterexample :
    validatedTransactions (parseCSV "Date,Description,Amount\n2024-01-01,x,Infinity") =
      parseCSV "Date,Description,Amount\n2024-01-01,x,Infinity" ∧
    (parseCSV "Date,Description,Amount\n2024-01-01,x,Infinity").map
      (fun r => r.amount.isFinite) = [false] := ⟨rfl, rfl⟩

/-- C7 (amended): validation discards exactly the records whose date is
falsy or whose amount is `NaN` (an infinite amount is accepted), and the
accepted count equals the total count minus the excluded count. -/
theorem tabs_c7_validation_amended (rs : List SrcRec) :
    validatedTransactions rs =
      rs.filter (fun r => !jvalFalsy r.date && !r.amount.isNaN) ∧
    (validatedTransactions rs).length =
      rs.length - (rs.filter (fun r => jvalFalsy r.date || r.amount.isNaN)).length := by
  have hfun : validatedTransactions rs =
      rs.filter (fun r => !jvalFalsy r.date && !r.amount.isNaN) := by
    unfold validatedTransactions
    exact List.filter_congr (fun r _ => validTx_eq r)
  refine ⟨hfun, ?_⟩
  have h2 : rs.filter (fun r => jvalFalsy r.date || r.amount.isNaN) =
      rs.filter (fun r => !(!jvalFalsy r.date && !r.amount.isNaN)) := by
    apply List.filter_congr
    intro r _
    cases h1 : jvalFalsy r.date <;> cases hn : r.amount.isNaN <;> simp [h1, hn]
  rw [hfun, h2]
  have := length_filter_compl (fun r => !jvalFalsy r.date && !r.amount.isNaN) rs
  omega

/-- C8 (as stated, refuted): a non-numeric, non-empty amount field is
claimed to be coerced to zero.  The CSV decoder gives the record amount
`NaN`, not zero. -/
theorem tabs_c8_counterexample :
    (parseCSV "Date,Description,Amount\n2024-01-01,x,abc").map (fun r => r.amount) =
      [JSNum.nan] ∧ JSNum.nan ≠ JSNum.num 0 := ⟨rfl, by decide⟩

/-- C8 (amended): only a missing or empty amount field is coerced (to the
string "0", hence to zero); a non-empty amount field reaches `parseFloat`
unchanged in both formats, so non-numeric text yields `NaN` — e.g.
`parseFloat "abc" = NaN` — and the record is later dropped by
validation rather than imported with amount zero. -/
theorem tabs_c8_amount_amended :
    (∀ headers values : List String,
      ((objGet headers values "Amount").getD "" = "" →
        (csvRow headers values).amount = JSNum.num 0) ∧
      (∀ a : String, (objGet headers values "Amount").getD "" = a → a ≠ "" →
        (csvRow headers values).amount = parseFloat a)) ∧
    (∀ (v : JValue) (a : String) (r : SrcRec),
        jvalGet v "Amount" = some (.str a) → a ≠ "" → ynabItem v = .ok r →
        r.amount = parseFloat a) ∧
    parseFloat "abc" = JSNum.nan := by
  refine ⟨?_, ?_, by decide⟩
  · intro headers values
    constructor
    · intro h
      show parseFloat (jsOrStr ((objGet headers values "Amount").getD "") "0") = JSNum.num 0
      rw [h]
      decide
    · intro a ha hne
      show parseFloat (jsOrStr ((objGet headers values "Amount").getD "") "0") = parseFloat a
      rw [ha]
      simp [jsOrStr, hne]
  · intro v a r hget hne hok
    cases v with
    | null => exact Except.noConfusion hok
    | bool b => simp [jvalGet] at hget
    | num q => simp [jvalGet] at hget
    | str s => simp [jvalGet] at hget
    | arr items => simp [jvalGet] at hget
    | obj fields =>
      injection hok with hr
      subst hr
      show parseFloatJV (jvalOr (jvalGet (.obj fields) "Amount") (.str "0")) = parseFloat a
      rw [hget]
      simp [jvalOr, jvalFalsy, hne, parseFloatJV, jvalToStr]

/-- C8 witness: the amended behavior at concrete rows — an empty Amount
field becomes 0, the field "abc" is handed to `parseFloat` as is. -/
theorem tabs_c8_witness :
    (csvRow ["Date", "Description", "Amount"] ["2024-01-01", "x", ""]).amount = JSNum.num 0 ∧
    (csvRow ["Date", "Description", "Amount"] ["2024-01-01", "x", "abc"]).amount =
      parseFloat "abc" := by
  exact ⟨(tabs_c8_amount_amended.1 _ _).1 rfl,
         (tabs_c8_amount_amended.1 _ _).2 "abc" rfl (by decide)⟩

/-- C9: whenever the import text does not parse as JSON (the parse throws)
or parses to a non-array, `parseYNAB` returns the empty record list
instead of raising. -/
theorem tabs_c9_nonarray_empty (parsed : Option JValue)
    (h : isArrayOpt parsed = false) : parseYNAB parsed = [] := by
  match parsed with
  | none => rfl
  | some v => cases v <;> simp_all [isArrayOpt, parseYNAB]

/-- C9 witness: a parsed JSON string (not an array) yields zero records. -/
theorem tabs_c9_witness : parseYNAB (some (JValue.str "not an array")) = [] :=
  tabs_c9_nonarray_empty _ rfl

/-- C10: deleting an absent id changes nothing; deleting a present
transaction removes it (keeping the others in order) and subtracts its
amount from the balance of its pre-delete account, other accounts
untouched. -/
theorem tabs_c10_delete (s : LedgerState) (id : ℕ) :
    (s.transactions.find? (fun t => t.id == id) = none → deleteTransaction id s = s) ∧
    (∀ tx, s.transactions.find? (fun t => t.id == id) = some tx →
      (deleteTransaction id s).transactions =
        s.transactions.filter (fun t => t.id ≠ id) ∧
      (deleteTransaction id s).accounts = s.accounts.map (fun a =>
        if a.id = tx.account then { a with balance := a.balance - tx.amount } else a)) := by
  constructor
  · intro h
    unfold deleteTransaction
    rw [h]
  · intro tx h
    unfold deleteTransaction
    rw [h]
    exact ⟨rfl, rfl⟩

/-- C10 witness: deleting the absent id 7 is a no-op on `exDelState`;
deleting the present id 0 removes `exDelTx` and debits `checking1` by
25. -/
theorem tabs_c10_witness :
    deleteTransaction 7 exDelState = exDelState ∧
    (deleteTransaction 0 exDelState).transactions =
      exDelState.transactions.filter (fun t => t.id ≠ 0) ∧
    (deleteTransaction 0 exDelState).accounts = exDelState.accounts.map (fun a =>
      if a.id = exDelTx.account then { a with balance := a.balance - exDelTx.amount } else a) :=
  ⟨(tabs_c10_delete exDelState 7).1 rfl,
   ((tabs_c10_delete exDelState 0).2 exDelTx rfl).1,
   ((tabs_c10_delete exDelState 0).2 exDelTx rfl).2⟩

end Tabs


/-- Sanity: parseFloat behaves as the JS builtin on the inputs the
claims exercise. -/
example : Tabs.parseFloat "0" = Tabs.JSNum.num 0 := by decide

example : Tabs.parseFloat "abc" = Tabs.JSNum.nan := by decide

example : Tabs.parseFloat "-4.50" = Tabs.JSNum.num (-45/10) := by decide

example : Tabs.parseFloat "Infinity" = Tabs.JSNum.inf := by decide

example : Tabs.categorizeTransaction "Monthly Netflix subscription" = "Entertainment" := by decide

example : Tabs.categorizeTransaction "Grocery run at Market" = "Food & Dining" := by decide

example : Tabs.categorizeTransaction "Unknown vendor xyz" = "Other" := by decide
